import Mathlib

/-!
Shallow embedding of `src/parsing.rs` from the `deno_ast` repository.

The file under verification is a configuration and adaptation layer around an
external lexer/parser (swc).  The external engine is modelled as an abstract
structure of pure functions (`SwcEngine`); everything the repository itself
contributes — grammar-config selection, override resolution, the token-capture
branch, mode dispatch, the two error tiers, the post-process hook, the
scope-analysis step and result packaging — is translated directly from the
source.
-/

namespace DenoAst

/-- Media types of source files, the variants matched in `get_syntax`. -/
inductive MediaType where
  | typeScript
  | mts
  | cts
  | dts
  | dmts
  | dcts
  | tsx
  | javaScript
  | mjs
  | cjs
  | jsx
  | json
  | wasm
  | tsBuildInfo
  | sourceMap
  | unknown
deriving DecidableEq

/-- ECMAScript language versions (`swc::ast::EsVersion`). -/
inductive EsVersion where
  | es5
  | es2015
  | es2016
  | es2017
  | es2018
  | es2019
  | es2020
  | es2021
  | es2022
  | esNext
deriving DecidableEq

/-- Ecmascript version used for lexing and parsing (`pub const ES_VERSION: EsVersion = EsVersion::Es2021`). -/
def ES_VERSION : EsVersion := EsVersion.es2021

/-- TypeScript grammar options (`swc::parser::TsConfig`), the fields set in `get_syntax`. -/
structure TsConfig where
  decorators : Bool
  disallow_ambiguous_jsx_like : Bool
  dts : Bool
  tsx : Bool
  no_early_errors : Bool
deriving DecidableEq

/-- EcmaScript grammar options (`swc::parser::EsConfig`), the fields set in `get_syntax`. -/
structure EsConfig where
  allow_return_outside_function : Bool
  allow_super_outside_method : Bool
  auto_accessors : Bool
  decorators : Bool
  decorators_before_export : Bool
  export_default_from : Bool
  fn_bind : Bool
  import_attributes : Bool
  jsx : Bool
  explicit_resource_management : Bool
deriving DecidableEq

/-- Grammar configuration (`swc::parser::Syntax`): a tagged union of the two flavors. -/
inductive SyntaxCfg where
  | typescript (cfg : TsConfig)
  | es (cfg : EsConfig)
deriving DecidableEq

/-- Gets the default grammar configuration used by `deno_ast` for the provided
media type (translation of `get_syntax`). -/
def get_syntax_cfg (media_type : MediaType) : SyntaxCfg :=
  match media_type with
  | MediaType.typeScript
  | MediaType.mts
  | MediaType.cts
  | MediaType.dts
  | MediaType.dmts
  | MediaType.dcts
  | MediaType.tsx =>
    SyntaxCfg.typescript {
      decorators := true
      disallow_ambiguous_jsx_like :=
        media_type = MediaType.mts ∨ media_type = MediaType.cts
      dts :=
        media_type = MediaType.dts ∨ media_type = MediaType.dmts ∨
          media_type = MediaType.dcts
      tsx := media_type = MediaType.tsx
      no_early_errors := false
    }
  | MediaType.javaScript
  | MediaType.mjs
  | MediaType.cjs
  | MediaType.jsx
  | MediaType.json
  | MediaType.wasm
  | MediaType.tsBuildInfo
  | MediaType.sourceMap
  | MediaType.unknown =>
    SyntaxCfg.es {
      allow_return_outside_function := true
      allow_super_outside_method := true
      auto_accessors := true
      decorators := false
      decorators_before_export := false
      export_default_from := true
      fn_bind := false
      import_attributes := true
      jsx := media_type = MediaType.jsx
      explicit_resource_management := true
    }

/-- Source text together with its position index (`SourceTextInfo`); only the
text itself is relevant to the parsing orchestration. -/
structure SourceTextInfo where
  text : String
deriving DecidableEq

/-- The input view handed to the lexer (`swc::common::input::StringInput`). -/
abbrev StringInput := String

/-- Translation of `SourceTextInfo::as_string_input`. -/
def SourceTextInfo.as_string_input (s : SourceTextInfo) : StringInput :=
  s.text

/-- A recoverable or fatal error produced by the external engine
(`swc::parser::error::Error`): a span plus a message. -/
structure SwcError where
  msg : String
  lo : Nat
  hi : Nat
deriving DecidableEq

/-- A diagnostic surfaced to the caller: specifier, originating source text,
span and message. -/
structure Diagnostic where
  specifier : String
  text_info : SourceTextInfo
  message : String
  lo : Nat
  hi : Nat
deriving DecidableEq

/-- Translation of `Diagnostic::from_swc_error`. -/
def Diagnostic.from_swc_error (err : SwcError) (specifier : String)
    (source : SourceTextInfo) : Diagnostic :=
  { specifier := specifier
    text_info := source
    message := err.msg
    lo := err.lo
    hi := err.hi }

/-- A lexical token with its span (`swc::parser::token::TokenAndSpan`);
the token payload is abstract. -/
structure TokenAndSpan where
  token : Nat
  lo : Nat
  hi : Nat
deriving DecidableEq

/-- Comment index owned by the single parsing thread
(`SingleThreadedComments`); its contents are abstract. -/
structure SingleThreadedComments where
  comments : List (Nat × String)
deriving DecidableEq

/-- Thread-shareable comment index (`MultiThreadedComments`). -/
structure MultiThreadedComments where
  comments : List (Nat × String)
deriving DecidableEq

/-- Translation of `MultiThreadedComments::from_single_threaded`. -/
def MultiThreadedComments.from_single_threaded
    (c : SingleThreadedComments) : MultiThreadedComments :=
  { comments := c.comments }

/-- An ECMAScript module AST (`swc::ast::Module`); its node payload is abstract. -/
structure Module where
  body : List Nat
deriving DecidableEq

/-- An ECMAScript script AST (`swc::ast::Script`); its node payload is abstract. -/
structure Script where
  body : List Nat
deriving DecidableEq

/-- A parsed program (`swc::ast::Program`): either a module or a script. -/
inductive Program where
  | module (m : Module)
  | script (s : Script)
deriving DecidableEq

/-- A scope mark produced by `Mark::new` (`swc::common::Mark`). -/
structure Mark where
  id : Nat
deriving DecidableEq

/-- A syntax context (`swc::common::SyntaxContext`): the list of marks applied to it. -/
structure SyntaxContext where
  marks : List Mark
deriving DecidableEq

/-- Translation of `SyntaxContext::empty`. -/
def SyntaxContext.empty : SyntaxContext :=
  { marks := [] }

/-- Translation of `SyntaxContext::apply_mark`. -/
def SyntaxContext.apply_mark (c : SyntaxContext) (m : Mark) : SyntaxContext :=
  { marks := c.marks ++ [m] }

/-- The two scope markers produced by scope analysis (`crate::SyntaxContexts`). -/
structure SyntaxContexts where
  unresolved : SyntaxContext
  top_level : SyntaxContext
deriving DecidableEq

/-- The external swc engine, modelled abstractly: each operation is a pure
function of the grammar configuration, the ECMAScript version the lexer was
constructed with, the input text, and (for the outputs read back off the parser
after a run) the parse mode that drove it. -/
structure SwcEngine where
  parse_program_raw : SyntaxCfg → EsVersion → StringInput → Except SwcError Program
  parse_module_raw : SyntaxCfg → EsVersion → StringInput → Except SwcError Module
  parse_script_raw : SyntaxCfg → EsVersion → StringInput → Except SwcError Script
  take_errors : SyntaxCfg → EsVersion → StringInput → List SwcError
  captured_tokens : SyntaxCfg → EsVersion → StringInput → List TokenAndSpan
  lex_comments : SyntaxCfg → EsVersion → StringInput → SingleThreadedComments
  resolver : Mark → Mark → Bool → Program → Program

/-- Parse mode selector (the private `enum ParseMode`). -/
inductive ParseMode where
  | program
  | module
  | script
deriving DecidableEq

/-- Parameters for parsing (`pub struct ParseParams`).  The explicit grammar
override field is `maybe_syntax` in the source. -/
structure ParseParams where
  specifier : String
  text_info : SourceTextInfo
  media_type : MediaType
  capture_tokens : Bool
  scope_analysis : Bool
  maybe_syntax_cfg : Option SyntaxCfg
deriving DecidableEq

/-- The terminal immutable result value (`ParsedSource`), as assembled by
`ParsedSource::new` inside `parse`. -/
structure ParsedSource where
  specifier : String
  media_type : MediaType
  text_info : SourceTextInfo
  comments : MultiThreadedComments
  program : Program
  tokens : Option (List TokenAndSpan)
  syntax_contexts : Option SyntaxContexts
  diagnostics : List Diagnostic
deriving DecidableEq

/-- Translation of `ParsedSource::new`, taking its arguments in source order. -/
def ParsedSource.new (specifier : String) (media_type : MediaType)
    (text_info : SourceTextInfo) (comments : MultiThreadedComments)
    (program : Program) (tokens : Option (List TokenAndSpan))
    (syntax_contexts : Option SyntaxContexts)
    (diagnostics : List Diagnostic) : ParsedSource :=
  { specifier := specifier
    media_type := media_type
    text_info := text_info
    comments := comments
    program := program
    tokens := tokens
    syntax_contexts := syntax_contexts
    diagnostics := diagnostics }

/-- Translation of `parse_string_input`: builds the lexer with the process-wide
`ES_VERSION`, dispatches on the parse mode, and captures the token stream only
when `capture_tokens` is set. -/
def parse_string_input (eng : SwcEngine) (input : StringInput)
    (stx : SyntaxCfg) (capture_tokens : Bool) (parse_mode : ParseMode) :
    Except SwcError
      (SingleThreadedComments × Program × Option (List TokenAndSpan) ×
        List SwcError) :=
  let comments := eng.lex_comments stx ES_VERSION input
  if capture_tokens then
    match
      (match parse_mode with
        | ParseMode.program => eng.parse_program_raw stx ES_VERSION input
        | ParseMode.module =>
          (eng.parse_module_raw stx ES_VERSION input).map Program.module
        | ParseMode.script =>
          (eng.parse_script_raw stx ES_VERSION input).map Program.script) with
    | Except.error e => Except.error e
    | Except.ok program =>
      Except.ok (comments, program,
        some (eng.captured_tokens stx ES_VERSION input),
        eng.take_errors stx ES_VERSION input)
  else
    match
      (match parse_mode with
        | ParseMode.program => eng.parse_program_raw stx ES_VERSION input
        | ParseMode.module =>
          (eng.parse_module_raw stx ES_VERSION input).map Program.module
        | ParseMode.script =>
          (eng.parse_script_raw stx ES_VERSION input).map Program.script) with
    | Except.error e => Except.error e
    | Except.ok program =>
      Except.ok (comments, program, none, eng.take_errors stx ES_VERSION input)

/-- Translation of `scope_analysis_transform_inner` (the body of the
`transforms` feature): two fresh marks under a fresh `Globals`, the resolver
fold, and the two syntax contexts built from the marks. -/
def scope_analysis_transform_inner (eng : SwcEngine) (program : Program) :
    Program × Option SyntaxContexts :=
  let unresolved_mark : Mark := { id := 1 }
  let top_level_mark : Mark := { id := 2 }
  let program := eng.resolver unresolved_mark top_level_mark true program
  (program,
    some { unresolved := SyntaxContext.empty.apply_mark unresolved_mark
           top_level := SyntaxContext.empty.apply_mark top_level_mark })

/-- Translation of `scope_analysis_transform`.  The compile-time cfg feature
`transforms` is modelled as an explicit boolean; when it is off the function
panics, modelled as `Except.error` carrying the panic message. -/
def scope_analysis_transform (transforms_feature : Bool) (eng : SwcEngine)
    (program : Program) : Except String (Program × Option SyntaxContexts) :=
  if transforms_feature then
    Except.ok (scope_analysis_transform_inner eng program)
  else
    Except.error
      "Cannot parse with scope analysis. Please enable the transforms feature."

/-- Outcome of a call to `parse`: a `ParsedSource`, an `Err(Diagnostic)`, or a
panic (which in Rust escapes the `Result` type). -/
inductive ParseOutcome where
  | ok (ps : ParsedSource)
  | err (d : Diagnostic)
  | panicked (msg : String)
deriving DecidableEq

/-- The grammar configuration actually used by `parse`:
`params.maybe_syntax.unwrap_or_else(|| get_syntax(media_type))`. -/
def effective_syntax_cfg (params : ParseParams) : SyntaxCfg :=
  params.maybe_syntax_cfg.getD (get_syntax_cfg params.media_type)

/-- Translation of the private `parse` function: resolves the grammar
configuration, runs `parse_string_input`, maps a fatal error to a single
diagnostic, converts recoverable errors to diagnostics, applies the
post-process hook, optionally runs scope analysis, and packages the result. -/
def parse (eng : SwcEngine) (transforms_feature : Bool) (params : ParseParams)
    (parse_mode : ParseMode) (post_process : Program → Program) :
    ParseOutcome :=
  let source := params.text_info
  let specifier := params.specifier
  let input := source.as_string_input
  let stx := effective_syntax_cfg params
  match parse_string_input eng input stx params.capture_tokens parse_mode with
  | Except.error err =>
    ParseOutcome.err (Diagnostic.from_swc_error err specifier source)
  | Except.ok (comments, program, tokens, errors) =>
    let diagnostics :=
      errors.map fun err => Diagnostic.from_swc_error err specifier source
    let program := post_process program
    match
      (if params.scope_analysis then
        scope_analysis_transform transforms_feature eng program
      else
        Except.ok (program, none)) with
    | Except.error msg => ParseOutcome.panicked msg
    | Except.ok (program, syntax_contexts) =>
      ParseOutcome.ok
        (ParsedSource.new specifier params.media_type source
          (MultiThreadedComments.from_single_threaded comments)
          program tokens syntax_contexts diagnostics)

/-- Translation of `parse_program`. -/
def parse_program (eng : SwcEngine) (transforms_feature : Bool)
    (params : ParseParams) : ParseOutcome :=
  parse eng transforms_feature params ParseMode.program fun p => p

/-- Translation of `parse_program_with_post_process`. -/
def parse_program_with_post_process (eng : SwcEngine)
    (transforms_feature : Bool) (params : ParseParams)
    (post_process : Program → Program) : ParseOutcome :=
  parse eng transforms_feature params ParseMode.program post_process

/-- Translation of `parse_module`. -/
def parse_module (eng : SwcEngine) (transforms_feature : Bool)
    (params : ParseParams) : ParseOutcome :=
  parse eng transforms_feature params ParseMode.module fun p => p

/-- Translation of `parse_module_with_post_process`.  The `unreachable!` arm of
the shape-dispatch closure is modelled by an explicit `unreachable_arm`
parameter, so that its irrelevance can be stated and proved. -/
def parse_module_with_post_process (eng : SwcEngine)
    (transforms_feature : Bool) (params : ParseParams)
    (post_process : Module → Module)
    (unreachable_arm : Program → Program) : ParseOutcome :=
  parse eng transforms_feature params ParseMode.module fun program =>
    match program with
    | Program.module m => Program.module (post_process m)
    | Program.script s => unreachable_arm (Program.script s)

/-- Translation of `parse_script`. -/
def parse_script (eng : SwcEngine) (transforms_feature : Bool)
    (params : ParseParams) : ParseOutcome :=
  parse eng transforms_feature params ParseMode.script fun p => p

/-- Translation of `parse_script_with_post_process`, with the `unreachable!`
arm modelled as in `parse_module_with_post_process`. -/
def parse_script_with_post_process (eng : SwcEngine)
    (transforms_feature : Bool) (params : ParseParams)
    (post_process : Script → Script)
    (unreachable_arm : Program → Program) : ParseOutcome :=
  parse eng transforms_feature params ParseMode.script fun program =>
    match program with
    | Program.module m => unreachable_arm (Program.module m)
    | Program.script s => Program.script (post_process s)

/-- Modelled from the spec: the token accessor of `ParsedSource` (its body is
not under `src/`).  Requesting tokens from a result built without token
capture must fail explicitly rather than return an empty sequence; the failure
message is the one pinned by the repository test suite. -/
def ParsedSource.tokens_strict (ps : ParsedSource) :
    Except String (List TokenAndSpan) :=
  match ps.tokens with
  | some t => Except.ok t
  | none =>
    Except.error "Tokens not found because they were not captured during parsing."

/-- Modelled from the spec: the unresolved-context accessor of `ParsedSource`
(its body is not under `src/`).  Requesting a scope marker from a result built
without scope analysis must fail explicitly rather than return a default
marker; the failure message is the one pinned by the repository test suite. -/
def ParsedSource.unresolved_context_strict (ps : ParsedSource) :
    Except String SyntaxContext :=
  match ps.syntax_contexts with
  | some c => Except.ok c.unresolved
  | none =>
    Except.error
      "Could not get syntax context because the source was not parsed with scope analysis."

/-- Modelled from the spec: the top-level-context accessor of `ParsedSource`
(its body is not under `src/`), failing explicitly when scope analysis was not
requested. -/
def ParsedSource.top_level_context_strict (ps : ParsedSource) :
    Except String SyntaxContext :=
  match ps.syntax_contexts with
  | some c => Except.ok c.top_level
  | none =>
    Except.error
      "Could not get syntax context because the source was not parsed with scope analysis."

end DenoAst

namespace DenoAst

/-! Helper lemmas shared by the claim theorems. -/

/-- Anatomy of a successful `parse_string_input` run: the comments, token
option, and error list are the engine outputs at `ES_VERSION`, with tokens
present exactly when capturing, and the program comes from the mode-matching
engine entry point. -/
theorem parse_string_input_ok_shape (eng : SwcEngine) (input : StringInput)
    (stx : SyntaxCfg) (ct : Bool) (mode : ParseMode)
    (c : SingleThreadedComments) (p : Program)
    (t : Option (List TokenAndSpan)) (e : List SwcError)
    (h : parse_string_input eng input stx ct mode = Except.ok (c, p, t, e)) :
    c = eng.lex_comments stx ES_VERSION input ∧
    t = (if ct then some (eng.captured_tokens stx ES_VERSION input) else none) ∧
    e = eng.take_errors stx ES_VERSION input ∧
    (match mode with
      | ParseMode.program =>
        eng.parse_program_raw stx ES_VERSION input = Except.ok p
      | ParseMode.module =>
        (eng.parse_module_raw stx ES_VERSION input).map Program.module =
          Except.ok p
      | ParseMode.script =>
        (eng.parse_script_raw stx ES_VERSION input).map Program.script =
          Except.ok p) := by
  cases ct <;> cases mode <;>
    (unfold parse_string_input at h
     dsimp only [] at h
     split at h <;> split at h <;> simp_all)

/-- A failing `parse_string_input` maps to a single fatal diagnostic. -/
theorem parse_err_of_psi_error (eng : SwcEngine) (tf : Bool)
    (params : ParseParams) (mode : ParseMode) (pp : Program → Program)
    (e : SwcError)
    (h : parse_string_input eng params.text_info.as_string_input
        (effective_syntax_cfg params) params.capture_tokens mode =
        Except.error e) :
    parse eng tf params mode pp =
      ParseOutcome.err
        (Diagnostic.from_swc_error e params.specifier params.text_info) := by
  unfold parse
  dsimp only []
  rw [h]

/-- A successful `parse_string_input` with scope analysis off packages
directly. -/
theorem parse_ok_of_psi_ok_no_scope (eng : SwcEngine) (tf : Bool)
    (params : ParseParams) (mode : ParseMode) (pp : Program → Program)
    (c : SingleThreadedComments) (p : Program)
    (t : Option (List TokenAndSpan)) (e : List SwcError)
    (h : parse_string_input eng params.text_info.as_string_input
        (effective_syntax_cfg params) params.capture_tokens mode =
        Except.ok (c, p, t, e))
    (hs : params.scope_analysis = false) :
    parse eng tf params mode pp =
      ParseOutcome.ok
        (ParsedSource.new params.specifier params.media_type params.text_info
          (MultiThreadedComments.from_single_threaded c) (pp p) t none
          (e.map fun err =>
            Diagnostic.from_swc_error err params.specifier params.text_info)) := by
  unfold parse
  dsimp only []
  rw [h, hs]
  rfl

/-- A successful `parse_string_input` with scope analysis on and the
`transforms` feature enabled packages the scope-analyzed tree together with
the two markers. -/
theorem parse_ok_of_psi_ok_scope (eng : SwcEngine) (params : ParseParams)
    (mode : ParseMode) (pp : Program → Program)
    (c : SingleThreadedComments) (p : Program)
    (t : Option (List TokenAndSpan)) (e : List SwcError)
    (h : parse_string_input eng params.text_info.as_string_input
        (effective_syntax_cfg params) params.capture_tokens mode =
        Except.ok (c, p, t, e))
    (hs : params.scope_analysis = true) :
    parse eng true params mode pp =
      ParseOutcome.ok
        (ParsedSource.new params.specifier params.media_type params.text_info
          (MultiThreadedComments.from_single_threaded c)
          (scope_analysis_transform_inner eng (pp p)).1 t
          (scope_analysis_transform_inner eng (pp p)).2
          (e.map fun err =>
            Diagnostic.from_swc_error err params.specifier params.text_info)) := by
  unfold parse
  dsimp only []
  rw [h, hs]
  rfl

/-- With scope analysis on but the `transforms` feature off, a successful raw
parse ends in the panic. -/
theorem parse_panics_of_psi_ok_no_transforms (eng : SwcEngine)
    (params : ParseParams) (mode : ParseMode) (pp : Program → Program)
    (c : SingleThreadedComments) (p : Program)
    (t : Option (List TokenAndSpan)) (e : List SwcError)
    (h : parse_string_input eng params.text_info.as_string_input
        (effective_syntax_cfg params) params.capture_tokens mode =
        Except.ok (c, p, t, e))
    (hs : params.scope_analysis = true) :
    parse eng false params mode pp =
      ParseOutcome.panicked
        "Cannot parse with scope analysis. Please enable the transforms feature." := by
  unfold parse
  dsimp only []
  rw [h, hs]
  rfl

end DenoAst

namespace DenoAst

/-- Full inversion of a successful `parse`: the raw parse succeeded, every
packaged field is determined by it, and the scope-analysis step either was
skipped (markers absent) or ran under the `transforms` feature (markers
present). -/
theorem parse_ok_inversion (eng : SwcEngine) (tf : Bool) (params : ParseParams)
    (mode : ParseMode) (pp : Program → Program) (ps : ParsedSource)
    (h : parse eng tf params mode pp = ParseOutcome.ok ps) :
    ∃ c p t e,
      parse_string_input eng params.text_info.as_string_input
        (effective_syntax_cfg params) params.capture_tokens mode =
        Except.ok (c, p, t, e) ∧
      ps.specifier = params.specifier ∧
      ps.media_type = params.media_type ∧
      ps.text_info = params.text_info ∧
      ps.comments = MultiThreadedComments.from_single_threaded c ∧
      ps.tokens = t ∧
      ps.diagnostics = (e.map fun err =>
        Diagnostic.from_swc_error err params.specifier params.text_info) ∧
      ((params.scope_analysis = false ∧ ps.program = pp p ∧
          ps.syntax_contexts = none) ∨
        (params.scope_analysis = true ∧ tf = true ∧
          ps.program = (scope_analysis_transform_inner eng (pp p)).1 ∧
          ps.syntax_contexts = (scope_analysis_transform_inner eng (pp p)).2)) := by
  cases hpsi : parse_string_input eng params.text_info.as_string_input
      (effective_syntax_cfg params) params.capture_tokens mode with
  | error e =>
    rw [parse_err_of_psi_error eng tf params mode pp e hpsi] at h
    simp at h
  | ok v =>
    obtain ⟨c, p, t, e⟩ := v
    refine ⟨c, p, t, e, rfl, ?_⟩
    cases hb : params.scope_analysis with
    | false =>
      rw [parse_ok_of_psi_ok_no_scope eng tf params mode pp c p t e hpsi hb] at h
      injection h with h
      subst h
      exact ⟨rfl, rfl, rfl, rfl, rfl, rfl, Or.inl ⟨rfl, rfl, rfl⟩⟩
    | true =>
      cases htf : tf with
      | false =>
        subst htf
        rw [parse_panics_of_psi_ok_no_transforms eng params mode pp c p t e
          hpsi hb] at h
        simp at h
      | true =>
        subst htf
        rw [parse_ok_of_psi_ok_scope eng params mode pp c p t e hpsi hb] at h
        injection h with h
        subst h
        exact ⟨rfl, rfl, rfl, rfl, rfl, rfl, Or.inr ⟨rfl, rfl, rfl, rfl⟩⟩

/-! Concrete sample data used by the witness theorems. -/

/-- Sample module AST. -/
def moduleA : Module := { body := [1, 2] }

/-- Sample script AST. -/
def scriptA : Script := { body := [3] }

/-- Sample source text (the text used by the repository test suite). -/
def textA : SourceTextInfo := { text := "// 1\n1 + 1\n// 2" }

/-- Sample captured token list. -/
def tokensA : List TokenAndSpan := [{ token := 1, lo := 0, hi := 1 }]

/-- Sample recoverable error reported by the engine. -/
def errRecov : SwcError := { msg := "recoverable", lo := 0, hi := 1 }

/-- Sample fatal error reported by the engine. -/
def errFatal : SwcError := { msg := "Expected token", lo := 4, hi := 5 }

/-- A concrete engine whose parses succeed, with one recoverable error. -/
def engC : SwcEngine where
  parse_program_raw := fun _ _ _ => Except.ok (Program.module moduleA)
  parse_module_raw := fun _ _ _ => Except.ok moduleA
  parse_script_raw := fun _ _ _ => Except.ok scriptA
  take_errors := fun _ _ _ => [errRecov]
  captured_tokens := fun _ _ _ => tokensA
  lex_comments := fun _ _ _ => { comments := [] }
  resolver := fun _ _ _ p => p

/-- A concrete engine whose parses all fail fatally. -/
def engFail : SwcEngine where
  parse_program_raw := fun _ _ _ => Except.error errFatal
  parse_module_raw := fun _ _ _ => Except.error errFatal
  parse_script_raw := fun _ _ _ => Except.error errFatal
  take_errors := fun _ _ _ => []
  captured_tokens := fun _ _ _ => []
  lex_comments := fun _ _ _ => { comments := [] }
  resolver := fun _ _ _ p => p

/-- A concrete engine agreeing with `engC` at `ES_VERSION` but failing at
every other ECMAScript version. -/
def engV : SwcEngine where
  parse_program_raw := fun _ v _ =>
    if v = EsVersion.es2021 then Except.ok (Program.module moduleA)
    else Except.error errFatal
  parse_module_raw := fun _ v _ =>
    if v = EsVersion.es2021 then Except.ok moduleA else Except.error errFatal
  parse_script_raw := fun _ v _ =>
    if v = EsVersion.es2021 then Except.ok scriptA else Except.error errFatal
  take_errors := fun _ _ _ => [errRecov]
  captured_tokens := fun _ _ _ => tokensA
  lex_comments := fun _ _ _ => { comments := [] }
  resolver := fun _ _ _ p => p

/-- Sample parse request: capture tokens, no scope analysis, no override. -/
def paramsA : ParseParams where
  specifier := "my_file.js"
  text_info := textA
  media_type := MediaType.javaScript
  capture_tokens := true
  scope_analysis := false
  maybe_syntax_cfg := none

/-- Sample parse request with scope analysis on. -/
def paramsScope : ParseParams := { paramsA with scope_analysis := true }

/-- Sample parse request with token capture off. -/
def paramsNoCapture : ParseParams := { paramsA with capture_tokens := false }

/-- Sample diagnostic derived from `errRecov`. -/
def diagRecov : Diagnostic :=
  { specifier := "my_file.js", text_info := textA, message := "recoverable"
    lo := 0, hi := 1 }

/-- Sample diagnostic derived from `errFatal`. -/
def diagFatal : Diagnostic :=
  { specifier := "my_file.js", text_info := textA
    message := "Expected token", lo := 4, hi := 5 }

/-- The two scope markers produced by the modelled scope analysis. -/
def ctxsA : SyntaxContexts :=
  { unresolved := { marks := [{ id := 1 }] }
    top_level := { marks := [{ id := 2 }] } }

/-- The parsed source produced from `engC` and `paramsA` in module mode. -/
def psA : ParsedSource where
  specifier := "my_file.js"
  media_type := MediaType.javaScript
  text_info := textA
  comments := { comments := [] }
  program := Program.module moduleA
  tokens := some tokensA
  syntax_contexts := none
  diagnostics := [diagRecov]

/-- The parsed source produced from `engC` and `paramsNoCapture`. -/
def psNoCapture : ParsedSource := { psA with tokens := none }

/-- The parsed source produced from `engC` and `paramsScope`. -/
def psScope : ParsedSource := { psA with syntax_contexts := some ctxsA }

end DenoAst

namespace DenoAst

/-- C3: for every TypeScript-family content kind (TypeScript, Mts, Cts, Dts,
Dmts, Dcts, Tsx), the default grammar configuration returned by the media-type
table is a TypeScript config with decorators enabled, JSX enabled only for
Tsx, ambient-declaration mode enabled exactly for Dts, Dmts and Dcts, and
ambiguous-JSX-like syntax disallowed exactly for Mts and Cts. -/
theorem get_syntax_cfg_ts_family (mt : MediaType)
    (h : mt = MediaType.typeScript ∨ mt = MediaType.mts ∨ mt = MediaType.cts ∨
      mt = MediaType.dts ∨ mt = MediaType.dmts ∨ mt = MediaType.dcts ∨
      mt = MediaType.tsx) :
    get_syntax_cfg mt = SyntaxCfg.typescript
      { decorators := true
        disallow_ambiguous_jsx_like :=
          decide (mt = MediaType.mts ∨ mt = MediaType.cts)
        dts := decide (mt = MediaType.dts ∨ mt = MediaType.dmts ∨
          mt = MediaType.dcts)
        tsx := decide (mt = MediaType.tsx)
        no_early_errors := false } := by
  rcases h with h | h | h | h | h | h | h <;> subst h <;> rfl

/-- Witness for C3 at the Tsx media type. -/
theorem get_syntax_cfg_ts_family_witness :
    (MediaType.tsx = MediaType.typeScript ∨ MediaType.tsx = MediaType.mts ∨
      MediaType.tsx = MediaType.cts ∨ MediaType.tsx = MediaType.dts ∨
      MediaType.tsx = MediaType.dmts ∨ MediaType.tsx = MediaType.dcts ∨
      MediaType.tsx = MediaType.tsx) ∧
    get_syntax_cfg MediaType.tsx = SyntaxCfg.typescript
      { decorators := true
        disallow_ambiguous_jsx_like := false
        dts := false
        tsx := true
        no_early_errors := false } :=
  ⟨by decide, get_syntax_cfg_ts_family MediaType.tsx (by decide)⟩

/-- C4: for every JavaScript-family or non-TS content kind (JavaScript, Mjs,
Cjs, Jsx, Json, Wasm, TsBuildInfo, SourceMap, Unknown), the default grammar
configuration is an EcmaScript config with decorators disabled, JSX enabled
only for Jsx, and return-outside-function, super-outside-method,
auto-accessors, import attributes and explicit resource management all
enabled. -/
theorem get_syntax_cfg_es_family (mt : MediaType)
    (h : mt = MediaType.javaScript ∨ mt = MediaType.mjs ∨ mt = MediaType.cjs ∨
      mt = MediaType.jsx ∨ mt = MediaType.json ∨ mt = MediaType.wasm ∨
      mt = MediaType.tsBuildInfo ∨ mt = MediaType.sourceMap ∨
      mt = MediaType.unknown) :
    get_syntax_cfg mt = SyntaxCfg.es
      { allow_return_outside_function := true
        allow_super_outside_method := true
        auto_accessors := true
        decorators := false
        decorators_before_export := false
        export_default_from := true
        fn_bind := false
        import_attributes := true
        jsx := decide (mt = MediaType.jsx)
        explicit_resource_management := true } := by
  rcases h with h | h | h | h | h | h | h | h | h <;> subst h <;> rfl

/-- Witness for C4 at the Jsx media type. -/
theorem get_syntax_cfg_es_family_witness :
    (MediaType.jsx = MediaType.javaScript ∨ MediaType.jsx = MediaType.mjs ∨
      MediaType.jsx = MediaType.cjs ∨ MediaType.jsx = MediaType.jsx ∨
      MediaType.jsx = MediaType.json ∨ MediaType.jsx = MediaType.wasm ∨
      MediaType.jsx = MediaType.tsBuildInfo ∨
      MediaType.jsx = MediaType.sourceMap ∨
      MediaType.jsx = MediaType.unknown) ∧
    get_syntax_cfg MediaType.jsx = SyntaxCfg.es
      { allow_return_outside_function := true
        allow_super_outside_method := true
        auto_accessors := true
        decorators := false
        decorators_before_export := false
        export_default_from := true
        fn_bind := false
        import_attributes := true
        jsx := true
        explicit_resource_management := true } :=
  ⟨by decide, get_syntax_cfg_es_family MediaType.jsx (by decide)⟩

/-- C5: an explicit grammar override is used verbatim — it determines the
effective configuration regardless of the media type, so the table is never
consulted and no merging happens — while without an override the
configuration is exactly the table entry for the media type; moreover every
parse behaves as if its effective configuration had been supplied
explicitly. -/
theorem explicit_syntax_cfg_override_semantics :
    (∀ (params : ParseParams) (s : SyntaxCfg),
      params.maybe_syntax_cfg = some s →
      effective_syntax_cfg params = s ∧
      ∀ mt, effective_syntax_cfg { params with media_type := mt } = s) ∧
    (∀ params : ParseParams, params.maybe_syntax_cfg = none →
      effective_syntax_cfg params = get_syntax_cfg params.media_type) ∧
    (∀ (eng : SwcEngine) (tf : Bool) (params : ParseParams) (mode : ParseMode)
      (pp : Program → Program),
      parse eng tf params mode pp =
        parse eng tf
          { params with maybe_syntax_cfg := some (effective_syntax_cfg params) }
          mode pp) := by
  refine ⟨?_, ?_, ?_⟩
  · intro params s h
    refine ⟨?_, ?_⟩
    · simp [effective_syntax_cfg, h]
    · intro mt
      simp [effective_syntax_cfg, h]
  · intro params h
    simp [effective_syntax_cfg, h]
  · intro eng tf params mode pp
    rfl

/-- Witness for C5: a concrete override is used verbatim, and a concrete
request without an override falls back to the table. -/
theorem explicit_syntax_cfg_override_semantics_witness :
    effective_syntax_cfg
      { paramsA with
        maybe_syntax_cfg := some (get_syntax_cfg MediaType.typeScript) } =
      get_syntax_cfg MediaType.typeScript ∧
    effective_syntax_cfg paramsA = get_syntax_cfg paramsA.media_type :=
  ⟨(explicit_syntax_cfg_override_semantics.1
      { paramsA with
        maybe_syntax_cfg := some (get_syntax_cfg MediaType.typeScript) }
      (get_syntax_cfg MediaType.typeScript) rfl).1,
    explicit_syntax_cfg_override_semantics.2.1 paramsA rfl⟩

/-- C9: parsing is deterministic — two requests with componentwise equal
parameters (same specifier, text, media type, flags and override), parsed
with the same engine, feature set, mode and hook, produce equal outcomes; in
particular equal trees and equal diagnostics lists. -/
theorem parse_is_deterministic (eng : SwcEngine) (tf : Bool)
    (mode : ParseMode) (pp : Program → Program) (p₁ p₂ : ParseParams)
    (h1 : p₁.specifier = p₂.specifier) (h2 : p₁.text_info = p₂.text_info)
    (h3 : p₁.media_type = p₂.media_type)
    (h4 : p₁.capture_tokens = p₂.capture_tokens)
    (h5 : p₁.scope_analysis = p₂.scope_analysis)
    (h6 : p₁.maybe_syntax_cfg = p₂.maybe_syntax_cfg) :
    parse eng tf p₁ mode pp = parse eng tf p₂ mode pp ∧
    ∀ ps₁ ps₂, parse eng tf p₁ mode pp = ParseOutcome.ok ps₁ →
      parse eng tf p₂ mode pp = ParseOutcome.ok ps₂ →
      ps₁.program = ps₂.program ∧ ps₁.diagnostics = ps₂.diagnostics := by
  obtain ⟨a1, b1, c1, d1, e1, f1⟩ := p₁
  obtain ⟨a2, b2, c2, d2, e2, f2⟩ := p₂
  dsimp only [] at h1 h2 h3 h4 h5 h6
  subst h1 h2 h3 h4 h5 h6
  refine ⟨rfl, ?_⟩
  intro ps₁ ps₂ hp1 hp2
  rw [hp1] at hp2
  injection hp2 with hp2
  subst hp2
  exact ⟨rfl, rfl⟩

/-- Witness for C9 at a concrete engine and request. -/
theorem parse_is_deterministic_witness :
    parse engC true paramsA ParseMode.module (fun p => p) =
      parse engC true paramsA ParseMode.module (fun p => p) :=
  (parse_is_deterministic engC true ParseMode.module (fun p => p) paramsA
    paramsA rfl rfl rfl rfl rfl rfl).1

end DenoAst

namespace DenoAst

/-- C1: a successfully parsed source contains a token sequence if and only if
`capture_tokens` was true; when it was false the token accessor fails
explicitly (never yielding an empty sequence), and when it was true the
accessor returns the captured token sequence. -/
theorem tokens_present_iff_capture_tokens (eng : SwcEngine) (tf : Bool)
    (params : ParseParams) (mode : ParseMode) (pp : Program → Program)
    (ps : ParsedSource)
    (h : parse eng tf params mode pp = ParseOutcome.ok ps) :
    ps.tokens.isSome = params.capture_tokens ∧
    (params.capture_tokens = false →
      ps.tokens_strict = Except.error
        "Tokens not found because they were not captured during parsing.") ∧
    (params.capture_tokens = true →
      ps.tokens_strict = Except.ok
        (eng.captured_tokens (effective_syntax_cfg params) ES_VERSION
          params.text_info.as_string_input)) := by
  obtain ⟨c, p, t, e, hpsi, _, _, _, _, htok, _, _⟩ :=
    parse_ok_inversion eng tf params mode pp ps h
  obtain ⟨_, ht, _, _⟩ :=
    parse_string_input_ok_shape eng _ _ _ mode c p t e hpsi
  rw [ht] at htok
  cases hct : params.capture_tokens with
  | false =>
    rw [hct] at htok
    simp only [Bool.false_eq_true, if_false] at htok
    refine ⟨by rw [htok]; rfl, ?_, ?_⟩
    · intro _
      simp [ParsedSource.tokens_strict, htok]
    · intro hcontra
      simp at hcontra
  | true =>
    rw [hct] at htok
    simp only [if_true] at htok
    refine ⟨by rw [htok]; rfl, ?_, ?_⟩
    · intro hcontra
      simp at hcontra
    · intro _
      simp [ParsedSource.tokens_strict, htok]

/-- Witness for C1: a concrete parse without token capture, whose token
accessor fails with the pinned message. -/
theorem tokens_present_iff_capture_tokens_witness :
    parse engC true paramsNoCapture ParseMode.module (fun p => p) =
      ParseOutcome.ok psNoCapture ∧
    psNoCapture.tokens_strict = Except.error
      "Tokens not found because they were not captured during parsing." :=
  ⟨rfl,
    (tokens_present_iff_capture_tokens engC true paramsNoCapture
      ParseMode.module (fun p => p) psNoCapture rfl).2.1 rfl⟩

/-- C2: a successfully parsed source carries scope markers if and only if
`scope_analysis` was true; with it false the marker accessors fail explicitly
with the pinned message, with it true exactly the two markers (unresolved and
top-level) are present and the `transforms` feature must have been on, and
with it true but the feature unavailable a raw-parse success ends in the
panic rather than any default value. -/
theorem scope_markers_present_iff_scope_analysis (eng : SwcEngine) (tf : Bool)
    (params : ParseParams) (mode : ParseMode) (pp : Program → Program) :
    (∀ ps, parse eng tf params mode pp = ParseOutcome.ok ps →
      ps.syntax_contexts.isSome = params.scope_analysis ∧
      (params.scope_analysis = false →
        ps.unresolved_context_strict = Except.error
          "Could not get syntax context because the source was not parsed with scope analysis." ∧
        ps.top_level_context_strict = Except.error
          "Could not get syntax context because the source was not parsed with scope analysis.") ∧
      (params.scope_analysis = true →
        tf = true ∧
        ps.syntax_contexts = some
          { unresolved := SyntaxContext.empty.apply_mark { id := 1 }
            top_level := SyntaxContext.empty.apply_mark { id := 2 } })) ∧
    (params.scope_analysis = true → tf = false →
      ∀ c p t e, parse_string_input eng params.text_info.as_string_input
        (effective_syntax_cfg params) params.capture_tokens mode =
        Except.ok (c, p, t, e) →
      parse eng tf params mode pp = ParseOutcome.panicked
        "Cannot parse with scope analysis. Please enable the transforms feature.") := by
  constructor
  · intro ps h
    obtain ⟨c, p, t, e, hpsi, _, _, _, _, _, _, hscope⟩ :=
      parse_ok_inversion eng tf params mode pp ps h
    rcases hscope with ⟨hsa, _, hctx⟩ | ⟨hsa, htf, _, hctx⟩
    · refine ⟨by rw [hctx, hsa]; rfl, ?_, ?_⟩
      · intro _
        exact ⟨by simp [ParsedSource.unresolved_context_strict, hctx],
          by simp [ParsedSource.top_level_context_strict, hctx]⟩
      · intro hcontra
        rw [hsa] at hcontra
        simp at hcontra
    · refine ⟨by rw [hctx, hsa]; rfl, ?_, ?_⟩
      · intro hcontra
        rw [hsa] at hcontra
        simp at hcontra
      · intro _
        exact ⟨htf, by rw [hctx]; rfl⟩
  · intro hsa htf c p t e hpsi
    subst htf
    exact parse_panics_of_psi_ok_no_transforms eng params mode pp c p t e
      hpsi hsa

/-- Witness for C2: a concrete parse with scope analysis on carries the two
markers. -/
theorem scope_markers_present_iff_scope_analysis_witness :
    parse engC true paramsScope ParseMode.module (fun p => p) =
      ParseOutcome.ok psScope ∧
    psScope.syntax_contexts.isSome = paramsScope.scope_analysis :=
  ⟨rfl,
    ((scope_markers_present_iff_scope_analysis engC true paramsScope
      ParseMode.module (fun p => p)).1 psScope rfl).1⟩

/-- C6: error handling has exactly two tiers — an unrecoverable raw-parse
failure yields an error outcome carrying a single diagnostic and no parsed
source, while a successful raw parse (not interrupted by the transforms
panic) yields a parsed source whose diagnostics list is exactly the converted
recoverable errors. -/
theorem two_tier_error_handling (eng : SwcEngine) (tf : Bool)
    (params : ParseParams) (mode : ParseMode) (pp : Program → Program) :
    (∀ e, parse_string_input eng params.text_info.as_string_input
        (effective_syntax_cfg params) params.capture_tokens mode =
        Except.error e →
      parse eng tf params mode pp = ParseOutcome.err
        (Diagnostic.from_swc_error e params.specifier params.text_info) ∧
      ∀ ps, parse eng tf params mode pp ≠ ParseOutcome.ok ps) ∧
    (∀ c p t e, parse_string_input eng params.text_info.as_string_input
        (effective_syntax_cfg params) params.capture_tokens mode =
        Except.ok (c, p, t, e) →
      params.scope_analysis = false ∨ tf = true →
      ∃ ps, parse eng tf params mode pp = ParseOutcome.ok ps ∧
        ps.diagnostics = (e.map fun err =>
          Diagnostic.from_swc_error err params.specifier params.text_info)) := by
  constructor
  · intro e he
    have hp := parse_err_of_psi_error eng tf params mode pp e he
    refine ⟨hp, ?_⟩
    intro ps hcontra
    rw [hp] at hcontra
    simp at hcontra
  · intro c p t e hpsi hcase
    rcases hcase with hsa | htf
    · exact ⟨_, parse_ok_of_psi_ok_no_scope eng tf params mode pp c p t e
        hpsi hsa, rfl⟩
    · subst htf
      cases hsa : params.scope_analysis with
      | false =>
        exact ⟨_, parse_ok_of_psi_ok_no_scope eng true params mode pp c p t e
          hpsi hsa, rfl⟩
      | true =>
        exact ⟨_, parse_ok_of_psi_ok_scope eng params mode pp c p t e
          hpsi hsa, rfl⟩

/-- Witness for C6: a concrete fatal parse yields a single diagnostic, and a
concrete recoverable error ends up in the diagnostics list of a successful
parse. -/
theorem two_tier_error_handling_witness :
    parse engFail true paramsA ParseMode.module (fun p => p) =
      ParseOutcome.err diagFatal ∧
    psA.diagnostics = [diagRecov] := by
  refine ⟨((two_tier_error_handling engFail true paramsA ParseMode.module
    (fun p => p)).1 errFatal rfl).1, ?_⟩
  obtain ⟨ps, hps, hdiag⟩ :=
    (two_tier_error_handling engC true paramsA ParseMode.module
      (fun p => p)).2 { comments := [] } (Program.module moduleA)
      (some tokensA) [errRecov] rfl (Or.inl rfl)
  have hA : parse engC true paramsA ParseMode.module (fun p => p) =
      ParseOutcome.ok psA := rfl
  rw [hA] at hps
  injection hps with hps
  rw [← hps] at hdiag
  exact hdiag

/-- C7: for every successful raw parse, the post-process hook is applied to
the freshly parsed tree, and the packaged tree is the post-processed tree
when scope analysis is off, or the scope-analyzed image of the
post-processed tree when it is on — never the raw tree in either pipeline
position. -/
theorem post_process_applied_before_scope_analysis (eng : SwcEngine)
    (tf : Bool) (params : ParseParams) (mode : ParseMode)
    (pp : Program → Program) (c : SingleThreadedComments) (p : Program)
    (t : Option (List TokenAndSpan)) (e : List SwcError)
    (h : parse_string_input eng params.text_info.as_string_input
      (effective_syntax_cfg params) params.capture_tokens mode =
      Except.ok (c, p, t, e)) :
    (params.scope_analysis = false →
      ∃ ps, parse eng tf params mode pp = ParseOutcome.ok ps ∧
        ps.program = pp p ∧ ps.syntax_contexts = none) ∧
    (params.scope_analysis = true → tf = true →
      ∃ ps, parse eng tf params mode pp = ParseOutcome.ok ps ∧
        ps.program = (scope_analysis_transform_inner eng (pp p)).1) := by
  constructor
  · intro hsa
    exact ⟨_, parse_ok_of_psi_ok_no_scope eng tf params mode pp c p t e h hsa,
      rfl, rfl⟩
  · intro hsa htf
    subst htf
    exact ⟨_, parse_ok_of_psi_ok_scope eng params mode pp c p t e h hsa, rfl⟩

/-- Constant post-process hook used by the C7 witness. -/
def ppConst : Program → Program := fun _ => Program.module { body := [7] }

/-- The parsed source produced from `engC` and `paramsA` under `ppConst`. -/
def psPP : ParsedSource := { psA with program := Program.module { body := [7] } }

/-- Witness for C7: a concrete parse packages the post-processed tree, not
the raw one. -/
theorem post_process_applied_before_scope_analysis_witness :
    parse engC true paramsA ParseMode.module ppConst = ParseOutcome.ok psPP ∧
    psPP.program = ppConst (Program.module moduleA) := by
  obtain ⟨ps, hps, hprog, _⟩ :=
    (post_process_applied_before_scope_analysis engC true paramsA
      ParseMode.module ppConst { comments := [] } (Program.module moduleA)
      (some tokensA) [errRecov] rfl).1 rfl
  have hA : parse engC true paramsA ParseMode.module ppConst =
      ParseOutcome.ok psPP := rfl
  rw [hA] at hps
  injection hps with hps
  subst hps
  exact ⟨hA, hprog⟩

end DenoAst

namespace DenoAst

/-- C8: the pinned ECMAScript target is Es2021, and every parse consults the
engine only at `ES_VERSION` — two engines that agree at `ES_VERSION` (and on
the version-independent resolver) produce identical outcomes for every
request, whatever its media type, override, mode, capture or scope flags, so
no request parameter can change the tokenization baseline. -/
theorem fixed_es_version_baseline :
    ES_VERSION = EsVersion.es2021 ∧
    ∀ eng eng' : SwcEngine,
      (∀ stx input, eng.parse_program_raw stx ES_VERSION input =
        eng'.parse_program_raw stx ES_VERSION input) →
      (∀ stx input, eng.parse_module_raw stx ES_VERSION input =
        eng'.parse_module_raw stx ES_VERSION input) →
      (∀ stx input, eng.parse_script_raw stx ES_VERSION input =
        eng'.parse_script_raw stx ES_VERSION input) →
      (∀ stx input, eng.take_errors stx ES_VERSION input =
        eng'.take_errors stx ES_VERSION input) →
      (∀ stx input, eng.captured_tokens stx ES_VERSION input =
        eng'.captured_tokens stx ES_VERSION input) →
      (∀ stx input, eng.lex_comments stx ES_VERSION input =
        eng'.lex_comments stx ES_VERSION input) →
      eng.resolver = eng'.resolver →
      ∀ (tf : Bool) (params : ParseParams) (mode : ParseMode)
        (pp : Program → Program),
        parse eng tf params mode pp = parse eng' tf params mode pp := by
  refine ⟨rfl, ?_⟩
  intro eng eng' h1 h2 h3 h4 h5 h6 h7 tf params mode pp
  have hpsi : ∀ input stx ct md,
      parse_string_input eng input stx ct md =
        parse_string_input eng' input stx ct md := by
    intro input stx ct md
    unfold parse_string_input
    cases ct <;> cases md <;> simp [h1, h2, h3, h4, h5, h6]
  have htr : ∀ (tfb : Bool) (pr : Program),
      scope_analysis_transform tfb eng pr =
        scope_analysis_transform tfb eng' pr := by
    intro tfb pr
    unfold scope_analysis_transform scope_analysis_transform_inner
    rw [h7]
  unfold parse
  dsimp only []
  rw [hpsi]
  cases hps : parse_string_input eng' params.text_info.as_string_input
      (effective_syntax_cfg params) params.capture_tokens mode with
  | error e => rfl
  | ok v =>
    obtain ⟨c, p, t, e⟩ := v
    dsimp only []
    rw [htr]

/-- Witness for C8: an engine that fails at every version other than Es2021
is indistinguishable from its Es2021-only restriction on a concrete
request. -/
theorem fixed_es_version_baseline_witness :
    parse engV true paramsA ParseMode.program (fun p => p) =
      parse engC true paramsA ParseMode.program (fun p => p) :=
  fixed_es_version_baseline.2 engV engC (fun _ _ => rfl) (fun _ _ => rfl)
    (fun _ _ => rfl) (fun _ _ => rfl) (fun _ _ => rfl) (fun _ _ => rfl) rfl
    true paramsA ParseMode.program (fun p => p)

/-- C10: the `unreachable!` arms of the shape-dispatch closures can never
fire — a successful raw parse in Module mode always wraps the result as a
module program and in Script mode as a script program, so the outcome of
`parse_module_with_post_process` and `parse_script_with_post_process` is
independent of what their unreachable arm would return. -/
theorem mode_dispatch_unreachable_arms (eng : SwcEngine) (input : StringInput)
    (stx : SyntaxCfg) (ct : Bool) (c : SingleThreadedComments) (p : Program)
    (t : Option (List TokenAndSpan)) (e : List SwcError) :
    (parse_string_input eng input stx ct ParseMode.module =
        Except.ok (c, p, t, e) →
      ∀ s, p ≠ Program.script s) ∧
    (parse_string_input eng input stx ct ParseMode.script =
        Except.ok (c, p, t, e) →
      ∀ m, p ≠ Program.module m) ∧
    (∀ (tf : Bool) (params : ParseParams) (ppm : Module → Module)
      (f g : Program → Program),
      parse_module_with_post_process eng tf params ppm f =
        parse_module_with_post_process eng tf params ppm g) ∧
    (∀ (tf : Bool) (params : ParseParams) (pps : Script → Script)
      (f g : Program → Program),
      parse_script_with_post_process eng tf params pps f =
        parse_script_with_post_process eng tf params pps g) := by
  refine ⟨?_, ?_, ?_, ?_⟩
  · intro h s hcontra
    obtain ⟨_, _, _, hm⟩ :=
      parse_string_input_ok_shape eng input stx ct ParseMode.module c p t e h
    subst hcontra
    cases hr : eng.parse_module_raw stx ES_VERSION input with
    | error er => rw [hr] at hm; simp [Except.map] at hm
    | ok m => rw [hr] at hm; simp [Except.map] at hm
  · intro h m hcontra
    obtain ⟨_, _, _, hm⟩ :=
      parse_string_input_ok_shape eng input stx ct ParseMode.script c p t e h
    subst hcontra
    cases hr : eng.parse_script_raw stx ES_VERSION input with
    | error er => rw [hr] at hm; simp [Except.map] at hm
    | ok s => rw [hr] at hm; simp [Except.map] at hm
  · intro tf params ppm f g
    unfold parse_module_with_post_process parse
    dsimp only []
    cases hpsi : parse_string_input eng params.text_info.as_string_input
        (effective_syntax_cfg params) params.capture_tokens
        ParseMode.module with
    | error e2 => rfl
    | ok v =>
      obtain ⟨c2, p2, t2, e2⟩ := v
      obtain ⟨_, _, _, hm⟩ :=
        parse_string_input_ok_shape eng _ _ _ ParseMode.module c2 p2 t2 e2 hpsi
      cases hr : eng.parse_module_raw (effective_syntax_cfg params) ES_VERSION
          params.text_info.as_string_input with
      | error er => rw [hr] at hm; simp [Except.map] at hm
      | ok m =>
        rw [hr] at hm
        simp [Except.map] at hm
        subst hm
        rfl
  · intro tf params pps f g
    unfold parse_script_with_post_process parse
    dsimp only []
    cases hpsi : parse_string_input eng params.text_info.as_string_input
        (effective_syntax_cfg params) params.capture_tokens
        ParseMode.script with
    | error e2 => rfl
    | ok v =>
      obtain ⟨c2, p2, t2, e2⟩ := v
      obtain ⟨_, _, _, hm⟩ :=
        parse_string_input_ok_shape eng _ _ _ ParseMode.script c2 p2 t2 e2 hpsi
      cases hr : eng.parse_script_raw (effective_syntax_cfg params) ES_VERSION
          params.text_info.as_string_input with
      | error er => rw [hr] at hm; simp [Except.map] at hm
      | ok s =>
        rw [hr] at hm
        simp [Except.map] at hm
        subst hm
        rfl

/-- Witness for C10: a concrete successful module-mode raw parse, and a
concrete module parse whose outcome ignores the unreachable arm. -/
theorem mode_dispatch_unreachable_arms_witness :
    parse_string_input engC textA.as_string_input
      (get_syntax_cfg MediaType.javaScript) true ParseMode.module =
      Except.ok ({ comments := [] }, Program.module moduleA, some tokensA,
        [errRecov]) ∧
    parse_module_with_post_process engC true paramsA (fun m => m)
      (fun _ => Program.script scriptA) =
      parse_module_with_post_process engC true paramsA (fun m => m)
      (fun pr => pr) :=
  ⟨rfl,
    (mode_dispatch_unreachable_arms engC textA.as_string_input
      (get_syntax_cfg MediaType.javaScript) true { comments := [] }
      (Program.module moduleA) (some tokensA) [errRecov]).2.2.1 true paramsA
      (fun m => m) (fun _ => Program.script scriptA) (fun pr => pr)⟩

end DenoAst
